import Mathlib

/-!
Verification of the NolaNewsMonitor core (src/monitor.js) against its
specification.  The JavaScript class is shallowly embedded: every method that
the claims touch is translated into a pure Lean function over explicit state,
and browser primitives (DOM selection, the interval-timer registry, the
Date parser, localStorage) are modelled by explicit parameters or explicit
state components.  JavaScript strings are modelled by String / List Char,
JavaScript numbers by Int / Rat, and NaN-valued timestamps by none.
-/

namespace NolaMonitor

/-! ## String helpers with JavaScript semantics

JS `hay.includes(needle)` and `s.startsWith(p)` are modelled on `List Char`
so that the proofs can proceed by structural induction. -/

/-- JS `hay.includes(needle)` : does `needle` occur as a contiguous substring? -/
def hasSubList : List Char → List Char → Bool
  | [], needle => needle.isPrefixOf ([] : List Char)
  | c :: cs, needle => needle.isPrefixOf (c :: cs) || hasSubList cs needle

/-- JS `hay.includes(needle)` on strings. -/
def strIncludes (hay needle : String) : Bool :=
  hasSubList hay.data needle.data

/-- JS `s.startsWith(p)`. -/
def jsStartsWith (s p : String) : Bool :=
  p.data.isPrefixOf s.data

/-- The whitespace characters relevant for JS `trim` on this page. -/
def isJsSpace (c : Char) : Bool :=
  c = ' ' || c = '\t' || c = '\n' || c = '\r'

/-- JS `s.trim()`. -/
def jsTrim (s : String) : String :=
  ⟨((s.data.dropWhile isJsSpace).reverse.dropWhile isJsSpace).reverse⟩

/-- JS `s.split(sep)` for a single-character separator (never returns `[]`). -/
def splitOnChar (sep : Char) : List Char → List (List Char)
  | [] => [[]]
  | c :: cs =>
    let r := splitOnChar sep cs
    if c = sep then [] :: r
    else
      match r with
      | h :: t => (c :: h) :: t
      | [] => [[c]]

/-! ## Data model (monitor.js lines 467–489)

A news record as pushed by `parseNewsFromHTML`.  The `timestamp` field is an
`Option Int`: `some t` is a finite epoch-millisecond value, `none` models the
JavaScript `NaN` produced by `getTime()` on an invalid `Date`. -/

structure NewsRecord where
  id : String
  title : String
  url : String
  date : String
  source : String
  excerpt : String
  timestamp : Option Int
deriving DecidableEq, Repr

/-- The two change categories emitted by `detectChanges` (the type the spec
calls ADDED is the string tag NEW in the code). -/
inductive ChangeType where
  | NEW
  | REMOVED
deriving DecidableEq, Repr

/-- A change event as pushed by `detectChanges` (monitor.js lines 503–519). -/
structure ChangeEvent where
  type : ChangeType
  item : NewsRecord
  description : String
deriving DecidableEq, Repr

/-! ## Change detector (monitor.js lines 496–524)

The two `forEach`/`push` loops translate to filter-and-map: the first loop
keeps every current record whose id matches no previous record and tags it
NEW; the second keeps every previous record whose id matches no current
record and tags it REMOVED. -/

def detectChanges (previousNews currentNews : List NewsRecord) : List ChangeEvent :=
  (currentNews.filter
      (fun current => !(previousNews.any (fun prev => prev.id == current.id)))).map
    (fun current =>
      { type := ChangeType.NEW, item := current,
        description := "New article: \"" ++ current.title ++ "\"" })
  ++
  (previousNews.filter
      (fun previous => !(currentNews.any (fun curr => curr.id == previous.id)))).map
    (fun previous =>
      { type := ChangeType.REMOVED, item := previous,
        description := "Removed article: \"" ++ previous.title ++ "\"" })

/-- The boolean the code tests (no previous record has a matching id),
rephrased as a decided universal. -/
theorem not_any_id_eq (P : List NewsRecord) (c : NewsRecord) :
    (!(P.any fun p => p.id == c.id)) = decide (∀ p ∈ P, p.id ≠ c.id) := by
  cases hb : P.any (fun p => p.id == c.id) with
  | false =>
    have hall : ∀ p ∈ P, p.id ≠ c.id := by
      intro p hp he
      have : P.any (fun p => p.id == c.id) = true :=
        List.any_eq_true.mpr ⟨p, hp, by simp [he]⟩
      simp [hb] at this
    simp only [hb, Bool.not_false]
    exact (decide_eq_true hall).symm
  | true =>
    obtain ⟨p, hp, he⟩ := List.any_eq_true.mp hb
    have he' : p.id = c.id := by simpa using he
    have hne : ¬ (∀ p ∈ P, p.id ≠ c.id) := fun h => h p hp he'
    simp [hne]

/-- Claim C1: detectChanges emits exactly one NEW (the category the spec names
ADDED) event for each current record whose id occurs in no previous record, in
current order, followed by exactly one REMOVED event for each previous record
whose id occurs in no current record, in previous order, and nothing else;
consequently detect of identical generations is empty, detect of two empty
generations is empty, and detect from an empty previous generation is one NEW
event per current record. -/
theorem detectChanges_added_then_removed :
    ∀ (P C : List NewsRecord),
      (detectChanges P C =
        (C.filter (fun c => decide (∀ p ∈ P, p.id ≠ c.id))).map
          (fun c => { type := ChangeType.NEW, item := c,
                      description := "New article: \"" ++ c.title ++ "\"" })
        ++
        (P.filter (fun p => decide (∀ c ∈ C, c.id ≠ p.id))).map
          (fun p => { type := ChangeType.REMOVED, item := p,
                      description := "Removed article: \"" ++ p.title ++ "\"" }))
      ∧ detectChanges P P = []
      ∧ detectChanges [] [] = []
      ∧ (detectChanges [] C).length = C.length
      ∧ ∀ e ∈ detectChanges [] C, e.type = ChangeType.NEW := by
  have hfil : ∀ (P C : List NewsRecord),
      C.filter (fun c => !(P.any fun p => p.id == c.id)) =
      C.filter (fun c => decide (∀ p ∈ P, p.id ≠ c.id)) := by
    intro P C
    apply List.filter_congr
    intro c _
    exact not_any_id_eq P c
  intro P C
  refine ⟨?_, ?_, ?_, ?_, ?_⟩
  · unfold detectChanges
    rw [hfil P C, hfil C P]
  · unfold detectChanges
    have h1 : P.filter (fun c => !(P.any fun p => p.id == c.id)) = [] := by
      apply List.filter_eq_nil_iff.mpr
      intro c hc
      have hany : P.any (fun p => p.id == c.id) = true := by
        refine List.any_eq_true.mpr ⟨c, hc, ?_⟩
        exact beq_self_eq_true c.id
      simp [hany]
    rw [h1]
    simp
  · rfl
  · unfold detectChanges
    simp
  · intro e he
    simp only [detectChanges, List.any_nil, Bool.not_false, List.filter_nil,
      List.map_nil, List.append_nil, List.filter_true, List.mem_map] at he
    obtain ⟨c, _, rfl⟩ := he
    rfl

/-- A concrete record for witnesses. -/
def sampleRec (i : String) : NewsRecord :=
  { id := i, title := "Sample title", url := "https://nola.gov/x/" ++ i,
    date := "Recent", source := "City of New Orleans",
    excerpt := "No description available", timestamp := some 0 }

/-- Witness for claim C1 at a concrete input: from an empty previous
generation, one current record yields exactly one event and it is NEW. -/
theorem detectChanges_added_then_removed_witness :
    (detectChanges [] [sampleRec "a"]).length = 1 ∧
    ∀ e ∈ detectChanges [] [sampleRec "a"], e.type = ChangeType.NEW :=
  ⟨(detectChanges_added_then_removed [] [sampleRec "a"]).2.2.2.1,
   (detectChanges_added_then_removed [] [sampleRec "a"]).2.2.2.2⟩

/-! ## Fetch gateway (monitor.js lines 305–379)

`fetchRealNewsData` iterates the hard-coded relay list; each iteration issues
a GET through one relay and accepts the response only when `response.ok`
holds (HTTP status 200–299).  The network is modelled by a function from the
relay base URL to an outcome; the fixed target URL and its percent-encoding
are constants folded into that function.  The loop result is paired with the
list of relays actually attempted, in order. -/

/-- Outcome of one HTTP GET through a relay: a network error, or a response
with an HTTP status and a body. -/
inductive RelayOutcome where
  | netError
  | response (status : Nat) (body : String)

/-- One iteration of the relay loop body: `some body` when the fetch neither
threw nor returned a non-ok status, `none` otherwise (the code throws and the
surrounding catch moves on to the next relay). -/
def proxyAttempt (net : String → RelayOutcome) (proxyUrl : String) : Option String :=
  match net proxyUrl with
  | RelayOutcome.netError => none
  | RelayOutcome.response status body =>
    if 200 ≤ status ∧ status ≤ 299 then some body else none

/-- The hard-coded relay list, in order of preference. -/
def proxies : List String :=
  ["https://corsproxy.io/?",
   "https://cors-anywhere.herokuapp.com/",
   "https://api.codetabs.com/v1/proxy?quest="]

/-- The single aggregate error surfaced when every relay has failed. -/
def fetchAggregateError : String :=
  "Unable to fetch news data. Please check your internet connection."

/-- The relay loop of `fetchRealNewsData`: first success wins; when the last
relay also fails, its error is rethrown and converted by the outer catch into
the one aggregate error.  The second component records which relays were
attempted, in order. -/
def fetchLoop (net : String → RelayOutcome) :
    List String → Except String String × List String
  | [] => (Except.error fetchAggregateError, [])
  | p :: rest =>
    match proxyAttempt net p with
    | some body => (Except.ok body, [p])
    | none =>
      let r := fetchLoop net rest
      (r.1, p :: r.2)

theorem fetchLoop_all_fail (net : String → RelayOutcome) :
    ∀ ps, (∀ p ∈ ps, proxyAttempt net p = none) →
      fetchLoop net ps = (Except.error fetchAggregateError, ps) := by
  intro ps
  induction ps with
  | nil => intro _; rfl
  | cons p rest ih =>
    intro h
    have hp : proxyAttempt net p = none := h p (List.mem_cons_self p rest)
    have hrest := ih (fun q hq => h q (List.mem_cons_of_mem p hq))
    simp [fetchLoop, hp, hrest]

theorem fetchLoop_error (net : String → RelayOutcome) :
    ∀ ps e, (fetchLoop net ps).1 = Except.error e →
      e = fetchAggregateError ∧ ∀ p ∈ ps, proxyAttempt net p = none := by
  intro ps
  induction ps with
  | nil =>
    intro e he
    simp only [fetchLoop] at he
    exact ⟨by cases he; rfl, by intro p hp; cases hp⟩
  | cons p rest ih =>
    intro e he
    cases hp : proxyAttempt net p with
    | some body => simp [fetchLoop, hp] at he
    | none =>
      simp only [fetchLoop, hp] at he
      obtain ⟨he1, hall⟩ := ih e he
      refine ⟨he1, ?_⟩
      intro q hq
      rcases List.mem_cons.mp hq with rfl | hq'
      · exact hp
      · exact hall q hq'

theorem fetchLoop_first_success (net : String → RelayOutcome) :
    ∀ pre p post body, (∀ q ∈ pre, proxyAttempt net q = none) →
      proxyAttempt net p = some body →
      fetchLoop net (pre ++ p :: post) = (Except.ok body, pre ++ [p]) := by
  intro pre
  induction pre with
  | nil =>
    intro p post body _ hp
    simp [fetchLoop, hp]
  | cons q rest ih =>
    intro p post body hpre hp
    have hq : proxyAttempt net q = none := hpre q (List.mem_cons_self q rest)
    have := ih p post body (fun r hr => hpre r (List.mem_cons_of_mem q hr)) hp
    simp [fetchLoop, hq, this]

/-- Claim C2: the gateway tries the configured relays strictly in their fixed
order, returns the body of the first relay whose response has a success
status without attempting any later relay, and fails with the single
aggregate error exactly when every relay fails; intermediate relay failures
are not surfaced. -/
theorem fetch_gateway_first_success :
    ∀ (net : String → RelayOutcome),
      ((∀ p ∈ proxies, proxyAttempt net p = none) →
        fetchLoop net proxies = (Except.error fetchAggregateError, proxies))
      ∧ (∀ e, (fetchLoop net proxies).1 = Except.error e →
          e = fetchAggregateError ∧ ∀ p ∈ proxies, proxyAttempt net p = none)
      ∧ (∀ pre p post body, proxies = pre ++ p :: post →
          (∀ q ∈ pre, proxyAttempt net q = none) →
          proxyAttempt net p = some body →
          fetchLoop net proxies = (Except.ok body, pre ++ [p])) := by
  intro net
  refine ⟨fetchLoop_all_fail net proxies, fetchLoop_error net proxies, ?_⟩
  intro pre p post body hsplit hpre hp
  rw [hsplit]
  exact fetchLoop_first_success net pre p post body hpre hp

/-- A network where the first two relays fail and the third succeeds. -/
def demoNet : String → RelayOutcome := fun p =>
  if p = "https://api.codetabs.com/v1/proxy?quest="
  then RelayOutcome.response 200 "<html>relay three</html>"
  else RelayOutcome.netError

/-- Witness for claim C2: with the first two relays failing and the third
succeeding, the gateway returns the body of the third relay after attempting
exactly the three relays in order. -/
theorem fetch_gateway_first_success_witness :
    (∀ q ∈ ["https://corsproxy.io/?", "https://cors-anywhere.herokuapp.com/"],
      proxyAttempt demoNet q = none) ∧
    fetchLoop demoNet proxies =
      (Except.ok "<html>relay three</html>",
       ["https://corsproxy.io/?", "https://cors-anywhere.herokuapp.com/"] ++
         ["https://api.codetabs.com/v1/proxy?quest="]) :=
  ⟨by decide,
   (fetch_gateway_first_success demoNet).2.2
     ["https://corsproxy.io/?", "https://cors-anywhere.herokuapp.com/"]
     "https://api.codetabs.com/v1/proxy?quest=" [] "<html>relay three</html>"
     (by rfl) (by decide) (by rfl)⟩

/-! ## URL normalization (monitor.js lines 404–418)

Three guarded rewrites, tried in order: a localhost rewrite through two
global regex replacements, a canonical-origin base for URLs rooted at `/`,
and a canonical-origin base plus separating slash for other non-absolute
URLs off the known secondary domain.  The two regexes
`https?:\/\/localhost(:\d+)?` and `localhost(:\d+)?` are implemented as
character-level scanners with the JS global-replace strategy: scan left to
right, replace each non-overlapping leftmost match, resume after it. -/

/-- Consume an exact literal from the front of `s`. -/
def chompLit : List Char → List Char → Option (List Char)
  | [], s => some s
  | _ :: _, [] => none
  | l :: ls, c :: cs => if c = l then chompLit ls cs else none

/-- Consume the optional greedy port group `(:\d+)?`: a colon followed by at
least one digit takes the colon and the whole digit run, anything else takes
nothing. -/
def chompPort (s : List Char) : List Char :=
  match s with
  | c :: c2 :: cs =>
    if c = ':' ∧ c2.isDigit then cs.dropWhile Char.isDigit else s
  | _ => s

/-- Match `https?:\/\/localhost(:\d+)?` at the head (the regex alternation
tries the longer scheme first, as backtracking does). -/
def matchLoopbackAbs (s : List Char) : Option (List Char) :=
  match chompLit "https://localhost".data s with
  | some r => some (chompPort r)
  | none =>
    match chompLit "http://localhost".data s with
    | some r => some (chompPort r)
    | none => none

/-- Match `localhost(:\d+)?` at the head. -/
def matchLoopbackBare (s : List Char) : Option (List Char) :=
  match chompLit "localhost".data s with
  | some r => some (chompPort r)
  | none => none

theorem chompLit_length :
    ∀ lit s r, chompLit lit s = some r → r.length + lit.length = s.length := by
  intro lit
  induction lit with
  | nil =>
    intro s r h
    cases h
    simp
  | cons l ls ih =>
    intro s r h
    cases s with
    | nil => cases h
    | cons c cs =>
      by_cases hc : c = l
      · simp only [chompLit, if_pos hc] at h
        have := ih cs r h
        simp [List.length_cons]
        omega
      · simp [chompLit, hc] at h

theorem chompPort_length_le (s : List Char) : (chompPort s).length ≤ s.length := by
  match s with
  | [] => exact Nat.le_refl _
  | [c] => exact Nat.le_refl _
  | c :: c2 :: cs =>
    simp only [chompPort]
    by_cases hc : c = ':' ∧ c2.isDigit
    · simp only [if_pos hc]
      have h1 : (cs.dropWhile Char.isDigit).length ≤ cs.length :=
        (List.dropWhile_sublist Char.isDigit).length_le
      simp only [List.length_cons]
      omega
    · simp [if_neg hc]

theorem matchLoopbackAbs_length_lt :
    ∀ s r, matchLoopbackAbs s = some r → r.length < s.length := by
  intro s r h
  simp only [matchLoopbackAbs] at h
  cases h1 : chompLit "https://localhost".data s with
  | some m =>
    rw [h1] at h
    cases h
    have := chompLit_length _ s m h1
    have h2 := chompPort_length_le m
    simp only [show ("https://localhost".data).length = 17 from rfl] at this
    omega
  | none =>
    rw [h1] at h
    cases h2 : chompLit "http://localhost".data s with
    | some m =>
      rw [h2] at h
      cases h
      have := chompLit_length _ s m h2
      have h3 := chompPort_length_le m
      simp only [show ("http://localhost".data).length = 16 from rfl] at this
      omega
    | none => rw [h2] at h; cases h

theorem matchLoopbackBare_length_lt :
    ∀ s r, matchLoopbackBare s = some r → r.length < s.length := by
  intro s r h
  simp only [matchLoopbackBare] at h
  cases h1 : chompLit "localhost".data s with
  | some m =>
    rw [h1] at h
    cases h
    have := chompLit_length _ s m h1
    have h2 := chompPort_length_le m
    simp only [show ("localhost".data).length = 9 from rfl] at this
    omega
  | none => rw [h1] at h; cases h

/-- Global replace of `https?:\/\/localhost(:\d+)?` by `https://nola.gov`. -/
def replaceLoopbackAbs (s : List Char) : List Char :=
  match s with
  | [] => []
  | c :: cs =>
    match h : matchLoopbackAbs (c :: cs) with
    | some rest => "https://nola.gov".data ++ replaceLoopbackAbs rest
    | none => c :: replaceLoopbackAbs cs
termination_by s.length
decreasing_by
  · exact matchLoopbackAbs_length_lt _ _ h
  · simp

/-- Global replace of `localhost(:\d+)?` by `nola.gov`. -/
def replaceLoopbackBare (s : List Char) : List Char :=
  match s with
  | [] => []
  | c :: cs =>
    match h : matchLoopbackBare (c :: cs) with
    | some rest => "nola.gov".data ++ replaceLoopbackBare rest
    | none => c :: replaceLoopbackBare cs
termination_by s.length
decreasing_by
  · exact matchLoopbackBare_length_lt _ _ h
  · simp

/-- The two successive replacements of the localhost branch. -/
def jsLocalhostRewrite (s : String) : String :=
  ⟨replaceLoopbackBare (replaceLoopbackAbs s.data)⟩

/-- The URL normalization of `parseNewsFromHTML` (monitor.js lines 404–418):
the three guarded branches in source order; a URL matching no guard (empty,
absolute, or on nopdnews.com) is left unchanged. -/
def normalizeUrl (url : String) : String :=
  if url ≠ "" ∧ strIncludes url "localhost" = true then
    jsLocalhostRewrite url
  else if url ≠ "" ∧ jsStartsWith url "/" = true then
    "https://nola.gov" ++ url
  else if url ≠ "" ∧ jsStartsWith url "http" = false ∧
      strIncludes url "nopdnews.com" = false then
    "https://nola.gov" ++ (if jsStartsWith url "/" = true then "" else "/") ++ url
  else url

/-! ### Substring facts about the localhost needle -/

theorem string_data_append (a b : String) : (a ++ b).data = a.data ++ b.data := rfl

theorem string_ne_of_data_ne (s : String) (h : s.data ≠ []) : s ≠ "" := by
  intro he
  rw [he] at h
  exact h rfl

theorem isPrefixOf_self_append (n t : List Char) : n.isPrefixOf (n ++ t) = true := by
  induction n with
  | nil => simp
  | cons a as ih => simp [List.isPrefixOf, ih]

theorem chompLit_self_append (lit t : List Char) : chompLit lit (lit ++ t) = some t := by
  induction lit with
  | nil => rfl
  | cons a as ih => simp [chompLit, ih]

theorem chompLit_some_eq :
    ∀ lit s r, chompLit lit s = some r → s = lit ++ r := by
  intro lit
  induction lit with
  | nil => intro s r h; cases h; rfl
  | cons l ls ih =>
    intro s r h
    cases s with
    | nil => cases h
    | cons c cs =>
      by_cases hc : c = l
      · subst hc
        simp only [chompLit, if_pos rfl] at h
        rw [List.cons_append, ih cs r h]
      · simp [chompLit, hc] at h

/-- Dropping a substring test past a head character that cannot start the
needle. -/
theorem hasSubList_cons_not_pre (c : Char) (cs needle : List Char)
    (h : needle.isPrefixOf (c :: cs) = false) :
    hasSubList (c :: cs) needle = hasSubList cs needle := by
  simp [hasSubList, h]

theorem localhost_pre_false_head (c : Char) (cs : List Char) (h : c ≠ 'l') :
    ("localhost".data).isPrefixOf (c :: cs) = false := by
  have hb : ('l' == c) = false := beq_eq_false_iff_ne.mpr (fun he => h he.symm)
  show (['l','o','c','a','l','h','o','s','t'].isPrefixOf (c :: cs)) = false
  simp [List.isPrefixOf, hb]

theorem localhost_pre_false_snd (c2 : Char) (cs : List Char) (h : c2 ≠ 'o') :
    ("localhost".data).isPrefixOf ('l' :: c2 :: cs) = false := by
  have hb : ('o' == c2) = false := beq_eq_false_iff_ne.mpr (fun he => h he.symm)
  show (['l','o','c','a','l','h','o','s','t'].isPrefixOf ('l' :: c2 :: cs)) = false
  simp [List.isPrefixOf, hb]

/-- The canonical origin contributes no occurrence of `localhost`. -/
theorem hasSub_nola_gov (p : List Char) :
    hasSubList ("https://nola.gov".data ++ p) "localhost".data =
    hasSubList p "localhost".data := by
  show hasSubList
      ('h' :: 't' :: 't' :: 'p' :: 's' :: ':' :: '/' :: '/' :: 'n' :: 'o' :: 'l' :: 'a' :: '.' :: 'g' :: 'o' :: 'v' ::p)
      "localhost".data = hasSubList p "localhost".data
  rw [hasSubList_cons_not_pre _ _ _ (localhost_pre_false_head 'h' _ (by decide)),
    hasSubList_cons_not_pre _ _ _ (localhost_pre_false_head 't' _ (by decide)),
    hasSubList_cons_not_pre _ _ _ (localhost_pre_false_head 't' _ (by decide)),
    hasSubList_cons_not_pre _ _ _ (localhost_pre_false_head 'p' _ (by decide)),
    hasSubList_cons_not_pre _ _ _ (localhost_pre_false_head 's' _ (by decide)),
    hasSubList_cons_not_pre _ _ _ (localhost_pre_false_head ':' _ (by decide)),
    hasSubList_cons_not_pre _ _ _ (localhost_pre_false_head '/' _ (by decide)),
    hasSubList_cons_not_pre _ _ _ (localhost_pre_false_head '/' _ (by decide)),
    hasSubList_cons_not_pre _ _ _ (localhost_pre_false_head 'n' _ (by decide)),
    hasSubList_cons_not_pre _ _ _ (localhost_pre_false_head 'o' _ (by decide)),
    hasSubList_cons_not_pre _ _ _ (localhost_pre_false_snd 'a' _ (by decide)),
    hasSubList_cons_not_pre _ _ _ (localhost_pre_false_head 'a' _ (by decide)),
    hasSubList_cons_not_pre _ _ _ (localhost_pre_false_head '.' _ (by decide)),
    hasSubList_cons_not_pre _ _ _ (localhost_pre_false_head 'g' _ (by decide)),
    hasSubList_cons_not_pre _ _ _ (localhost_pre_false_head 'o' _ (by decide)),
    hasSubList_cons_not_pre _ _ _ (localhost_pre_false_head 'v' _ (by decide))]

theorem hasSub_localhost_append (t : List Char) :
    hasSubList ("localhost".data ++ t) "localhost".data = true := by
  show hasSubList ('l' :: ("ocalhost".data ++ t)) "localhost".data = true
  have hp : ("localhost".data).isPrefixOf ('l' :: ("ocalhost".data ++ t)) = true := by
    have := isPrefixOf_self_append "localhost".data t
    exact this
  simp [hasSubList, hp]

theorem hasSub_http_loopback (t : List Char) :
    hasSubList ("http://localhost".data ++ t) "localhost".data = true := by
  show hasSubList
      ('h' :: 't' :: 't' :: 'p' :: ':' :: '/' :: '/' ::("localhost".data ++ t))
      "localhost".data = true
  rw [hasSubList_cons_not_pre _ _ _ (localhost_pre_false_head 'h' _ (by decide)),
    hasSubList_cons_not_pre _ _ _ (localhost_pre_false_head 't' _ (by decide)),
    hasSubList_cons_not_pre _ _ _ (localhost_pre_false_head 't' _ (by decide)),
    hasSubList_cons_not_pre _ _ _ (localhost_pre_false_head 'p' _ (by decide)),
    hasSubList_cons_not_pre _ _ _ (localhost_pre_false_head ':' _ (by decide)),
    hasSubList_cons_not_pre _ _ _ (localhost_pre_false_head '/' _ (by decide)),
    hasSubList_cons_not_pre _ _ _ (localhost_pre_false_head '/' _ (by decide))]
  exact hasSub_localhost_append t

theorem hasSub_https_loopback (t : List Char) :
    hasSubList ("https://localhost".data ++ t) "localhost".data = true := by
  show hasSubList
      ('h' :: 't' :: 't' :: 'p' :: 's' :: ':' :: '/' :: '/' ::("localhost".data ++ t))
      "localhost".data = true
  rw [hasSubList_cons_not_pre _ _ _ (localhost_pre_false_head 'h' _ (by decide)),
    hasSubList_cons_not_pre _ _ _ (localhost_pre_false_head 't' _ (by decide)),
    hasSubList_cons_not_pre _ _ _ (localhost_pre_false_head 't' _ (by decide)),
    hasSubList_cons_not_pre _ _ _ (localhost_pre_false_head 'p' _ (by decide)),
    hasSubList_cons_not_pre _ _ _ (localhost_pre_false_head 's' _ (by decide)),
    hasSubList_cons_not_pre _ _ _ (localhost_pre_false_head ':' _ (by decide)),
    hasSubList_cons_not_pre _ _ _ (localhost_pre_false_head '/' _ (by decide)),
    hasSubList_cons_not_pre _ _ _ (localhost_pre_false_head '/' _ (by decide))]
  exact hasSub_localhost_append t

/-! ### Behaviour of the two global replacements -/

theorem matchLoopbackAbs_hasSub (s r : List Char)
    (h : matchLoopbackAbs s = some r) :
    hasSubList s "localhost".data = true := by
  simp only [matchLoopbackAbs] at h
  cases h1 : chompLit "https://localhost".data s with
  | some m =>
    have hs := chompLit_some_eq _ s m h1
    rw [hs]
    have : ("https://localhost".data) = "https://".data ++ "localhost".data := rfl
    rw [this, List.append_assoc]
    exact hasSub_https_loopback m
  | none =>
    rw [h1] at h
    cases h2 : chompLit "http://localhost".data s with
    | some m =>
      have hs := chompLit_some_eq _ s m h2
      rw [hs]
      have : ("http://localhost".data) = "http://".data ++ "localhost".data := rfl
      rw [this, List.append_assoc]
      exact hasSub_http_loopback m
    | none => rw [h2] at h; cases h

theorem matchLoopbackBare_hasSub (s r : List Char)
    (h : matchLoopbackBare s = some r) :
    hasSubList s "localhost".data = true := by
  simp only [matchLoopbackBare] at h
  cases h1 : chompLit "localhost".data s with
  | some m =>
    have hs := chompLit_some_eq _ s m h1
    rw [hs]
    exact hasSub_localhost_append m
  | none => rw [h1] at h; cases h

theorem replaceLoopbackAbs_id (s : List Char)
    (h : hasSubList s "localhost".data = false) :
    replaceLoopbackAbs s = s := by
  induction s with
  | nil => rw [replaceLoopbackAbs]
  | cons c cs ih =>
    have hsplit : ("localhost".data).isPrefixOf (c :: cs) = false ∧
        hasSubList cs "localhost".data = false := by
      have := h
      simp only [hasSubList, Bool.or_eq_false_iff] at this
      exact this
    have hm : matchLoopbackAbs (c :: cs) = none := by
      cases hm : matchLoopbackAbs (c :: cs) with
      | none => rfl
      | some r =>
        have := matchLoopbackAbs_hasSub _ _ hm
        rw [h] at this
        cases this
    rw [replaceLoopbackAbs, hm, ih hsplit.2]

theorem replaceLoopbackBare_id (s : List Char)
    (h : hasSubList s "localhost".data = false) :
    replaceLoopbackBare s = s := by
  induction s with
  | nil => rw [replaceLoopbackBare]
  | cons c cs ih =>
    have hsplit : ("localhost".data).isPrefixOf (c :: cs) = false ∧
        hasSubList cs "localhost".data = false := by
      have := h
      simp only [hasSubList, Bool.or_eq_false_iff] at this
      exact this
    have hm : matchLoopbackBare (c :: cs) = none := by
      cases hm : matchLoopbackBare (c :: cs) with
      | none => rfl
      | some r =>
        have := matchLoopbackBare_hasSub _ _ hm
        rw [h] at this
        cases this
    rw [replaceLoopbackBare, hm, ih hsplit.2]

/-! ### Computing the loopback rewrite on well-formed loopback URLs -/

/-- A well-formed optional port: absent, or a colon followed by one or more
digits. -/
def goodPort (port : List Char) : Prop :=
  port = [] ∨ ∃ d ds, port = ':' :: d :: ds ∧ d.isDigit = true ∧
    ∀ c ∈ ds, c.isDigit = true

/-- A path part that is empty or rooted at a slash. -/
def goodPath (path : List Char) : Prop :=
  path = [] ∨ ∃ rest, path = '/' :: rest

theorem chompPort_goodPath (path : List Char) (h : goodPath path) :
    chompPort path = path := by
  rcases h with rfl | ⟨rest, rfl⟩
  · rfl
  · cases rest with
    | nil => rfl
    | cons c2 cs =>
      simp only [chompPort]
      rw [if_neg]
      rintro ⟨h1, _⟩
      cases h1

theorem dropWhile_digits_append (ds path : List Char)
    (hds : ∀ c ∈ ds, c.isDigit = true) (hpath : goodPath path) :
    (ds ++ path).dropWhile Char.isDigit = path := by
  induction ds with
  | nil =>
    simp only [List.nil_append]
    rcases hpath with rfl | ⟨rest, rfl⟩
    · rfl
    · rw [List.dropWhile_cons, if_neg]
      simp
  | cons d ds ih =>
    have hd : d.isDigit = true := hds d (List.mem_cons_self d ds)
    rw [List.cons_append, List.dropWhile_cons, if_pos hd]
    exact ih (fun c hc => hds c (List.mem_cons_of_mem d hc))

theorem chompPort_goodPort_append (port path : List Char)
    (hport : goodPort port) (hpath : goodPath path) :
    chompPort (port ++ path) = path := by
  rcases hport with rfl | ⟨d, ds, rfl, hd, hds⟩
  · simpa using chompPort_goodPath path hpath
  · show chompPort (':' :: d :: (ds ++ path)) = path
    rw [show chompPort (':' :: d :: (ds ++ path)) =
        (ds ++ path).dropWhile Char.isDigit from by simp [chompPort, hd]]
    exact dropWhile_digits_append ds path hds hpath

theorem matchLoopbackAbs_at_http (port path : List Char)
    (hport : goodPort port) (hpath : goodPath path) :
    matchLoopbackAbs ("http://localhost".data ++ (port ++ path)) = some path := by
  have h1 : chompLit "https://localhost".data
      ("http://localhost".data ++ (port ++ path)) = none := by
    show chompLit "https://localhost".data
      ('h' :: 't' :: 't' :: 'p' :: ':' :: '/' :: '/' ::("localhost".data ++ (port ++ path))) = none
    simp [chompLit]
  have h2 : chompLit "http://localhost".data
      ("http://localhost".data ++ (port ++ path)) = some (port ++ path) :=
    chompLit_self_append _ _
  simp only [matchLoopbackAbs, h1, h2]
  rw [chompPort_goodPort_append port path hport hpath]

theorem matchLoopbackAbs_at_https (port path : List Char)
    (hport : goodPort port) (hpath : goodPath path) :
    matchLoopbackAbs ("https://localhost".data ++ (port ++ path)) = some path := by
  have h1 : chompLit "https://localhost".data
      ("https://localhost".data ++ (port ++ path)) = some (port ++ path) :=
    chompLit_self_append _ _
  simp only [matchLoopbackAbs, h1]
  rw [chompPort_goodPort_append port path hport hpath]

/-- Unfolding `replaceLoopbackAbs` at a successful match. -/
theorem replaceLoopbackAbs_match_some (s rest : List Char)
    (h : matchLoopbackAbs s = some rest) :
    replaceLoopbackAbs s = "https://nola.gov".data ++ replaceLoopbackAbs rest := by
  cases s with
  | nil =>
    exact Option.noConfusion
      (show (Option.none : Option (List Char)) = some rest from h)
  | cons c cs =>
    rw [replaceLoopbackAbs]
    split
    · next r hr =>
      rw [hr] at h
      cases h
      rfl
    · next hr =>
      rw [hr] at h
      cases h

/-- The localhost branch on an absolute loopback URL (either scheme) yields
the same path on the canonical origin. -/
theorem jsLocalhostRewrite_loopback (port path : List Char)
    (hport : goodPort port) (hpath : goodPath path)
    (hclean : hasSubList path "localhost".data = false) :
    replaceLoopbackBare
      (replaceLoopbackAbs ("http://localhost".data ++ (port ++ path))) =
      "https://nola.gov".data ++ path ∧
    replaceLoopbackBare
      (replaceLoopbackAbs ("https://localhost".data ++ (port ++ path))) =
      "https://nola.gov".data ++ path := by
  constructor
  · rw [replaceLoopbackAbs_match_some _ path
      (matchLoopbackAbs_at_http port path hport hpath),
      replaceLoopbackAbs_id path hclean]
    apply replaceLoopbackBare_id
    rw [hasSub_nola_gov path]
    exact hclean
  · rw [replaceLoopbackAbs_match_some _ path
      (matchLoopbackAbs_at_https port path hport hpath),
      replaceLoopbackAbs_id path hclean]
    apply replaceLoopbackBare_id
    rw [hasSub_nola_gov path]
    exact hclean

/-! ### The three branches of normalizeUrl -/

theorem isPre_cons_false (a b : Char) (as bs : List Char) (h : (a == b) = false) :
    (a :: as).isPrefixOf (b :: bs) = false := by
  simp [List.isPrefixOf, h]

theorem jsStartsWith_ne_empty (u : String) (h : jsStartsWith u "/" = true) :
    u ≠ "" := by
  apply string_ne_of_data_ne
  intro hd
  have : jsStartsWith u "/" = false := by
    show ("/").data.isPrefixOf u.data = false
    rw [hd]
    rfl
  rw [h] at this
  cases this

theorem normalizeUrl_branch_slash (u : String)
    (hns : strIncludes u "localhost" = false) (hs : jsStartsWith u "/" = true) :
    normalizeUrl u = "https://nola.gov" ++ u := by
  have hne : u ≠ "" := jsStartsWith_ne_empty u hs
  simp [normalizeUrl, hns, hs, hne]

theorem normalizeUrl_branch_other (u : String) (hne : u ≠ "")
    (hns : strIncludes u "localhost" = false)
    (hh : jsStartsWith u "http" = false)
    (hnop : strIncludes u "nopdnews.com" = false)
    (hsl : jsStartsWith u "/" = false) :
    normalizeUrl u = "https://nola.gov" ++ "/" ++ u := by
  simp [normalizeUrl, hns, hh, hnop, hsl, hne]

/-- A URL already on the canonical origin is left unchanged provided its tail
holds no occurrence of localhost. -/
theorem normalizeUrl_nola_fixed (p : String)
    (hp : hasSubList p.data "localhost".data = false) :
    normalizeUrl ("https://nola.gov" ++ p) = "https://nola.gov" ++ p := by
  have h1 : strIncludes ("https://nola.gov" ++ p) "localhost" = false := by
    show hasSubList (("https://nola.gov" ++ p).data) "localhost".data = false
    rw [string_data_append, hasSub_nola_gov]
    exact hp
  have h2 : jsStartsWith ("https://nola.gov" ++ p) "/" = false := by
    show ("/").data.isPrefixOf (("https://nola.gov" ++ p).data) = false
    rw [string_data_append]
    exact isPre_cons_false '/' 'h' _ _ (by decide)
  have h3 : jsStartsWith ("https://nola.gov" ++ p) "http" = true := by
    show ("http").data.isPrefixOf (("https://nola.gov" ++ p).data) = true
    rw [string_data_append]
    show (['h','t','t','p'] : List Char).isPrefixOf
      ('h' :: 't' :: 't' :: 'p' :: 's' :: ':' :: '/' :: '/' :: 'n' :: 'o' :: 'l' :: 'a' :: '.' :: 'g' :: 'o' :: 'v' ::p.data)
      = true
    simp [List.isPrefixOf]
  simp [normalizeUrl, h1, h2, h3]

theorem string_append_assoc (a b c : String) :
    (a ++ b) ++ c = a ++ (b ++ c) := by
  apply String.ext
  rw [string_data_append, string_data_append, string_data_append,
    string_data_append, List.append_assoc]

theorem string_mk_append (a : String) (l : List Char) :
    (⟨a.data ++ l⟩ : String) = a ++ (⟨l⟩ : String) := by
  apply String.ext
  rw [string_data_append]

/-- Claim C7 (amended): normalization maps an absolute loopback URL — either
scheme, an optional numeric port, a path that is empty or rooted at a slash
and itself free of the substring localhost — to the same path on the
canonical public origin, with no localhost substring remaining; it prefixes
any other localhost-free URL rooted at a slash with the canonical origin; it
prefixes any other localhost-free URL that is neither http-prefixed nor on
the known secondary domain with the canonical origin and a separating slash;
and it is idempotent on every URL free of the substring localhost.  (The
original unrestricted claim fails: a URL such as news-localhost carries the
substring outside a loopback-host position, is rewritten off-origin, and is
prefixed again by a second normalization.) -/
theorem normalizeUrl_spec :
    (∀ port path : String, goodPort port.data → goodPath path.data →
      hasSubList path.data "localhost".data = false →
      normalizeUrl ("http://localhost" ++ port ++ path) =
        "https://nola.gov" ++ path ∧
      normalizeUrl ("https://localhost" ++ port ++ path) =
        "https://nola.gov" ++ path ∧
      strIncludes ("https://nola.gov" ++ path) "localhost" = false)
    ∧ (∀ u : String, strIncludes u "localhost" = false →
        jsStartsWith u "/" = true →
        normalizeUrl u = "https://nola.gov" ++ u)
    ∧ (∀ u : String, u ≠ "" → strIncludes u "localhost" = false →
        jsStartsWith u "http" = false → strIncludes u "nopdnews.com" = false →
        jsStartsWith u "/" = false →
        normalizeUrl u = "https://nola.gov" ++ "/" ++ u)
    ∧ (∀ u : String, strIncludes u "localhost" = false →
        normalizeUrl (normalizeUrl u) = normalizeUrl u) := by
  have hclean_out : ∀ path : String,
      hasSubList path.data "localhost".data = false →
      strIncludes ("https://nola.gov" ++ path) "localhost" = false := by
    intro path hclean
    show hasSubList (("https://nola.gov" ++ path).data) "localhost".data = false
    rw [string_data_append, hasSub_nola_gov]
    exact hclean
  refine ⟨?_, normalizeUrl_branch_slash, normalizeUrl_branch_other, ?_⟩
  · intro port path hport hpath hclean
    have hdata1 : ("http://localhost" ++ port ++ path).data =
        "http://localhost".data ++ (port.data ++ path.data) := by
      rw [string_data_append, string_data_append, List.append_assoc]
    have hdata2 : ("https://localhost" ++ port ++ path).data =
        "https://localhost".data ++ (port.data ++ path.data) := by
      rw [string_data_append, string_data_append, List.append_assoc]
    have key : ∀ (u : String),
        u.data = "http://localhost".data ++ (port.data ++ path.data) ∨
        u.data = "https://localhost".data ++ (port.data ++ path.data) →
        normalizeUrl u = "https://nola.gov" ++ path := by
      intro u hu
      have hinc : strIncludes u "localhost" = true := by
        show hasSubList u.data "localhost".data = true
        rcases hu with hu | hu
        · rw [hu]; exact hasSub_http_loopback _
        · rw [hu]; exact hasSub_https_loopback _
      have hne : u ≠ "" := by
        apply string_ne_of_data_ne
        rcases hu with hu | hu <;> rw [hu] <;> exact List.cons_ne_nil _ _
      have hbr : normalizeUrl u = jsLocalhostRewrite u := by
        simp [normalizeUrl, hinc, hne]
      rw [hbr]
      show (⟨replaceLoopbackBare (replaceLoopbackAbs u.data)⟩ : String) =
        "https://nola.gov" ++ path
      rcases hu with hu | hu
      · rw [hu,
          (jsLocalhostRewrite_loopback port.data path.data hport hpath hclean).1]
        exact string_mk_append "https://nola.gov" path.data
      · rw [hu,
          (jsLocalhostRewrite_loopback port.data path.data hport hpath hclean).2]
        exact string_mk_append "https://nola.gov" path.data
    exact ⟨key _ (Or.inl hdata1), key _ (Or.inr hdata2), hclean_out path hclean⟩
  · intro u hns
    by_cases hsl : jsStartsWith u "/" = true
    · rw [normalizeUrl_branch_slash u hns hsl]
      exact normalizeUrl_nola_fixed u hns
    · have hsl' : jsStartsWith u "/" = false := by
        rwa [Bool.not_eq_true] at hsl
      by_cases hne : u = ""
      · subst hne
        have h0 : normalizeUrl "" = "" := by simp [normalizeUrl]
        rw [h0, h0]
      · by_cases hh : jsStartsWith u "http" = true
        · have hid : normalizeUrl u = u := by simp [normalizeUrl, hns, hsl', hh]
          rw [hid, hid]
        · have hh' : jsStartsWith u "http" = false := by
            rwa [Bool.not_eq_true] at hh
          by_cases hnop : strIncludes u "nopdnews.com" = true
          · have hid : normalizeUrl u = u := by
              simp [normalizeUrl, hns, hsl', hnop]
            rw [hid, hid]
          · have hnop' : strIncludes u "nopdnews.com" = false := by
              rwa [Bool.not_eq_true] at hnop
            rw [normalizeUrl_branch_other u hne hns hh' hnop' hsl',
              string_append_assoc]
            apply normalizeUrl_nola_fixed
            rw [string_data_append]
            show hasSubList ('/' :: u.data) "localhost".data = false
            rw [hasSubList_cons_not_pre _ _ _
              (localhost_pre_false_head '/' _ (by decide))]
            exact hns

/-- Witness for claim C7 (amended) at the concrete loopback URL from the
spec. -/
theorem normalizeUrl_spec_witness :
    normalizeUrl "http://localhost:8000/next/news/" =
      "https://nola.gov/next/news/" ∧
    strIncludes "https://nola.gov/next/news/" "localhost" = false := by
  have h := normalizeUrl_spec.1 ":8000" "/next/news/"
    (Or.inr ⟨'8', ['0','0','0'], rfl, by decide, by decide⟩)
    (Or.inr ⟨"next/news/".data, rfl⟩)
    (by decide)
  have heq : ("http://localhost" ++ ":8000" ++ "/next/news/" : String) =
      "http://localhost:8000/next/news/" := by decide
  have hout : ("https://nola.gov" ++ "/next/news/" : String) =
      "https://nola.gov/next/news/" := by decide
  refine ⟨?_, ?_⟩
  · rw [← heq, h.1, hout]
  · rw [← hout]
    exact h.2.2

/-! ### Evaluating the rewrite on the counterexample URL -/

theorem hasSub_of_pre (n : List Char) (c : Char) (cs : List Char)
    (h : n.isPrefixOf (c :: cs) = true) : hasSubList (c :: cs) n = true := by
  simp [hasSubList, h]

theorem matchLoopbackAbs_hasSub_http (s r : List Char)
    (h : matchLoopbackAbs s = some r) : hasSubList s "http".data = true := by
  simp only [matchLoopbackAbs] at h
  cases h1 : chompLit "https://localhost".data s with
  | some m =>
    have hs := chompLit_some_eq _ s m h1
    subst hs
    apply hasSub_of_pre
    have : ("https://localhost".data ++ m) =
        "http".data ++ ("s://localhost".data ++ m) := by
      rw [← List.append_assoc]
      rfl
    show ("http".data).isPrefixOf ("http".data ++ ("s://localhost".data ++ m)) = true
    exact isPrefixOf_self_append _ _
  | none =>
    rw [h1] at h
    cases h2 : chompLit "http://localhost".data s with
    | some m =>
      have hs := chompLit_some_eq _ s m h2
      subst hs
      apply hasSub_of_pre
      show ("http".data).isPrefixOf ("http".data ++ ("://localhost".data ++ m)) = true
      exact isPrefixOf_self_append _ _
    | none => rw [h2] at h; cases h

/-- Off any occurrence of `http`, the first replacement is the identity even
when a bare `localhost` occurs. -/
theorem replaceLoopbackAbs_id_no_http (s : List Char)
    (h : hasSubList s "http".data = false) :
    replaceLoopbackAbs s = s := by
  induction s with
  | nil => rw [replaceLoopbackAbs]
  | cons c cs ih =>
    have hsplit : hasSubList cs "http".data = false := by
      have := h
      simp only [hasSubList, Bool.or_eq_false_iff] at this
      exact this.2
    have hm : matchLoopbackAbs (c :: cs) = none := by
      cases hm : matchLoopbackAbs (c :: cs) with
      | none => rfl
      | some r =>
        have := matchLoopbackAbs_hasSub_http _ _ hm
        rw [h] at this
        cases this
    rw [replaceLoopbackAbs, hm, ih hsplit]

theorem replaceLoopbackBare_match_some (s rest : List Char)
    (h : matchLoopbackBare s = some rest) :
    replaceLoopbackBare s = "nola.gov".data ++ replaceLoopbackBare rest := by
  cases s with
  | nil =>
    exact Option.noConfusion
      (show (Option.none : Option (List Char)) = some rest from h)
  | cons c cs =>
    rw [replaceLoopbackBare]
    split
    · next r hr =>
      rw [hr] at h
      cases h
      rfl
    · next hr =>
      rw [hr] at h
      cases h

theorem replaceLoopbackBare_step_none (c : Char) (cs : List Char)
    (h : matchLoopbackBare (c :: cs) = none) :
    replaceLoopbackBare (c :: cs) = c :: replaceLoopbackBare cs := by
  rw [replaceLoopbackBare]
  split
  · next r hr =>
    rw [hr] at h
    cases h
  · rfl

/-- Counterexample to claim C7 as stated: on the URL news-localhost, which
carries the substring localhost outside a loopback-host position,
normalization is not idempotent (the first pass rewrites the substring
without moving the URL to the canonical origin and the second pass prefixes
it), so the unrestricted idempotence conjunct of the claim is false. -/
theorem normalizeUrl_claim_counterexample :
    normalizeUrl (normalizeUrl "news-localhost") ≠
      normalizeUrl "news-localhost" := by
  have h1 : normalizeUrl "news-localhost" = "news-nola.gov" := by
    have hbr : normalizeUrl "news-localhost" =
        jsLocalhostRewrite "news-localhost" := by
      simp [normalizeUrl,
        show strIncludes "news-localhost" "localhost" = true from by decide,
        show ("news-localhost" : String) ≠ "" from by decide]
    have habs : replaceLoopbackAbs "news-localhost".data =
        "news-localhost".data :=
      replaceLoopbackAbs_id_no_http _ (by decide)
    have s1 : replaceLoopbackBare "news-localhost".data =
        'n' :: replaceLoopbackBare "ews-localhost".data :=
      replaceLoopbackBare_step_none 'n' "ews-localhost".data (by decide)
    have s2 : replaceLoopbackBare "ews-localhost".data =
        'e' :: replaceLoopbackBare "ws-localhost".data :=
      replaceLoopbackBare_step_none 'e' "ws-localhost".data (by decide)
    have s3 : replaceLoopbackBare "ws-localhost".data =
        'w' :: replaceLoopbackBare "s-localhost".data :=
      replaceLoopbackBare_step_none 'w' "s-localhost".data (by decide)
    have s4 : replaceLoopbackBare "s-localhost".data =
        's' :: replaceLoopbackBare "-localhost".data :=
      replaceLoopbackBare_step_none 's' "-localhost".data (by decide)
    have s5 : replaceLoopbackBare "-localhost".data =
        '-' :: replaceLoopbackBare "localhost".data :=
      replaceLoopbackBare_step_none '-' "localhost".data (by decide)
    have s6 : replaceLoopbackBare "localhost".data =
        "nola.gov".data ++ replaceLoopbackBare [] :=
      replaceLoopbackBare_match_some "localhost".data [] (by decide)
    have s7 : replaceLoopbackBare ([] : List Char) = [] := by
      rw [replaceLoopbackBare]
    rw [hbr]
    show (⟨replaceLoopbackBare (replaceLoopbackAbs "news-localhost".data)⟩ :
      String) = "news-nola.gov"
    rw [habs, s1, s2, s3, s4, s5, s6, s7]
    rfl
  have h2 : normalizeUrl "news-nola.gov" =
      "https://nola.gov" ++ "/" ++ "news-nola.gov" :=
    normalizeUrl_branch_other _ (by decide) (by decide) (by decide)
      (by decide) (by decide)
  rw [h1, h2]
  decide

/-! ## Extraction engine (monitor.js lines 381–494)

The DOM selection `h3 a[...]` is outside a shallow embedding, so the engine
is modelled from the selected anchors onward: each matched anchor supplies
its trimmed-to-be text content, the effective href (getAttribute value or
element href, the empty string when absent) and the text content of its
enclosing container.  The `Date` parser of the host is a parameter
`parseDate`; it returns `some t` for a date string the host can parse and
`none` for one yielding an Invalid Date, whose `getTime()` is NaN. -/

structure Anchor where
  text : String
  href : String
  containerText : String
deriving Repr

/-- Is this an ASCII capital letter (the regex class `[A-Z]`)? -/
def isUpperAZ (c : Char) : Bool := 'A' ≤ c && c ≤ 'Z'

/-- Is this an ASCII small letter (the regex class `[a-z]`)? -/
def isLowerAZ (c : Char) : Bool := 'a' ≤ c && c ≤ 'z'

/-- Match `, \d{4}` at the head, returning the consumed characters. -/
def matchDateTail (r : List Char) : Option (List Char) :=
  match r with
  | ',' :: ' ' :: a :: b :: c :: d :: _ =>
    if a.isDigit && b.isDigit && c.isDigit && d.isDigit
    then some [',', ' ', a, b, c, d] else none
  | _ => none

/-- Match the date regex `[A-Z][a-z]+ \d{1,2}, \d{4}` at the head of `s`,
returning the matched substring; the two-digit day is tried first, then the
one-digit day, as regex backtracking does. -/
def matchDateAt (s : List Char) : Option (List Char) :=
  match s with
  | [] => none
  | c0 :: rest =>
    if isUpperAZ c0 then
      let low := rest.takeWhile isLowerAZ
      let rest2 := rest.drop low.length
      if low.isEmpty then none
      else
        match rest2 with
        | ' ' :: r3 =>
          match r3 with
          | d1 :: r4 =>
            if d1.isDigit then
              let two :=
                match r4 with
                | d2 :: r5 =>
                  if d2.isDigit then
                    (matchDateTail r5).map (fun t => [d1, d2] ++ t)
                  else none
                | [] => none
              match two with
              | some m => some (c0 :: low ++ ' ' :: m)
              | none =>
                (matchDateTail r4).map (fun t => c0 :: low ++ ' ' :: d1 :: t)
            else none
          | [] => none
        | _ => none
    else none

/-- First match of the date regex anywhere in `s` (JS `String.match` without
the global flag). -/
def findDateAux : List Char → Option (List Char)
  | [] => none
  | c :: cs =>
    match matchDateAt (c :: cs) with
    | some m => some m
    | none => findDateAux cs

/-- `textContent.match(/([A-Z][a-z]+ \d{1,2}, \d{4})/)`, first capture. -/
def findDate (s : String) : Option String :=
  (findDateAux s.data).map (fun l => (⟨l⟩ : String))

/-- The inner excerpt scan (monitor.js lines 453–462): the first following
line that does not carry `From `, does not match the date pattern, and is
longer than 20 characters. -/
def scanExcerptLines (lines : List (List Char)) : List Char :=
  match lines with
  | [] => []
  | l :: ls =>
    if !(hasSubList l "From ".data) && (findDateAux l).isNone &&
        decide (l.length > 20)
    then l else scanExcerptLines ls

/-- The outer excerpt scan (monitor.js lines 449–465): find the line equal to
the title, then scan the following lines; only the first title occurrence is
considered. -/
def findExcerptAfterTitle (title : List Char) :
    List (List Char) → List Char
  | [] => []
  | l :: ls =>
    if l = title then scanExcerptLines ls else findExcerptAfterTitle title ls

/-- Timestamp estimation (monitor.js lines 470–478).  `new Date(d)` never
throws on an unparseable string: it yields an Invalid Date whose `getTime()`
is NaN (modelled `none`), so the catch branch assigning
`Date.now() - index * 3600000` is unreachable.  An empty date string is
falsy, leaving the initial `Date.now()`. -/
def jsEstimateTimestamp (parseDate : String → Option Int) (now : Int)
    (_index : Nat) (date : String) : Option Int :=
  if date ≠ "" then parseDate date else some now

/-- One iteration of the `forEach` over matched anchors: `some record` when
the title filter admits the item, `none` when it is skipped. -/
def mkNewsItem (parseDate : String → Option Int) (now : Int) (index : Nat)
    (a : Anchor) : Option NewsRecord :=
  let title := jsTrim a.text
  let url := normalizeUrl a.href
  let textContent := a.containerText
  let date := match findDate textContent with
    | some d => d
    | none => ""
  let source :=
    if strIncludes textContent "From NOPD News" = true then "NOPD News"
    else if strIncludes textContent "From City of New Orleans" = true then
      "City of New Orleans"
    else "City of New Orleans"
  let lines := ((splitOnChar '\n' textContent.data).map
    (fun l => (jsTrim ⟨l⟩).data)).filter (fun l => l ≠ [])
  let excerpt := findExcerptAfterTitle title.data lines
  let id :=
    if url = "" then "item-" ++ toString index
    else
      let lastSeg := (splitOnChar '/' url.data).getLastD []
      if lastSeg = [] then "item-" ++ toString index else (⟨lastSeg⟩ : String)
  let timestamp := jsEstimateTimestamp parseDate now index date
  if title ≠ "" ∧ title.length > 3 then
    some { id := id, title := title,
           url := if url = "" then "#" else url,
           date := if date = "" then "Recent" else date,
           source := source,
           excerpt := if excerpt = [] then "No description available"
             else (⟨excerpt⟩ : String),
           timestamp := timestamp }
  else none

/-- `parseNewsFromHTML` from the matched anchors onward: assemble a record
per anchor, in document order, skipping items rejected by the title
filter. -/
def parseNewsFromHTML (parseDate : String → Option Int) (now : Int)
    (anchors : List Anchor) : List NewsRecord :=
  (anchors.enum).filterMap (fun p => mkNewsItem parseDate now p.1 p.2)

/-- The whole of `fetchRealNewsData`: the relay loop followed by extraction
of the fetched markup (`select` stands for the DOM query returning the
matched anchors of a document). -/
def fetchRealNewsData (net : String → RelayOutcome)
    (select : String → List Anchor) (parseDate : String → Option Int)
    (now : Int) : Except String (List NewsRecord) × List String :=
  let r := fetchLoop net proxies
  (r.1.map (fun html => parseNewsFromHTML parseDate now (select html)), r.2)

/-- Claim C5 is contradicted by the code: for a record whose extracted date
string is present but unparseable, `new Date(date).getTime()` is NaN and no
exception is thrown, so the catch branch computing the documented fallback
`now - index * 3600000` never runs; the stored timestamp is NaN (`none`),
not the fallback.  The second conjunct evaluates a whole extraction at such
an input. -/
theorem extractTimestamp_nan_on_unparseable :
    (∀ (parseDate : String → Option Int) (now : Int) (idx : Nat) (d : String),
      d ≠ "" → parseDate d = none →
      jsEstimateTimestamp parseDate now idx d = none ∧
      jsEstimateTimestamp parseDate now idx d ≠
        some (now - (idx : Int) * 3600000))
    ∧ (parseNewsFromHTML (fun _ => none) 7
        [⟨"abcd", "", "Zzz 13, 2025"⟩]).map (fun r => r.timestamp) =
        [none] := by
  constructor
  · intro parseDate now idx d hd hp
    refine ⟨by simp [jsEstimateTimestamp, hd, hp], ?_⟩
    simp [jsEstimateTimestamp, hd, hp]
  · decide

/-- Witness for the C5 theorem at a concrete unparseable date string. -/
theorem extractTimestamp_nan_on_unparseable_witness :
    ("Zzz 13, 2025" ≠ "" ∧
      (fun _ => (none : Option Int)) "Zzz 13, 2025" = none) ∧
    jsEstimateTimestamp (fun _ => none) 7 0 "Zzz 13, 2025" = none :=
  ⟨⟨by decide, rfl⟩,
   (extractTimestamp_nan_on_unparseable.1 (fun _ => none) 7 0 "Zzz 13, 2025"
     (by decide) rfl).1⟩

/-- Claim C6 is contradicted by the code: the id is the last path segment of
the normalized URL (or the positional fallback), but nothing makes it unique
within a batch — two anchors whose URLs share a last segment yield records
with identical ids. -/
theorem extraction_duplicate_ids :
    (parseNewsFromHTML (fun _ => none) 0
      [{ text := "Alpha story", href := "/a/x", containerText := "" },
       { text := "Betaa story", href := "/b/x", containerText := "" }]).map
        (fun r => r.id) = ["x", "x"] ∧
    ¬ ((parseNewsFromHTML (fun _ => none) 0
      [{ text := "Alpha story", href := "/a/x", containerText := "" },
       { text := "Betaa story", href := "/b/x", containerText := "" }]).map
        (fun r => r.id)).Nodup := by
  constructor
  · decide
  · decide

/-! ## Relevance scorer (monitor.js lines 589–614)

The JS arithmetic stays in multiples of one half, which binary floats
represent exactly, so the running score is modelled in `Rat`; `Math.round`
rounds halves towards positive infinity, exactly Mathlib round on `Rat`.  A
NaN timestamp makes both recency comparisons false (bonus 0), modelled by
the `none` case. -/

def calculateNewsworthiness (item : NewsRecord) (keywords : List String)
    (now : Int) : Int × String :=
  let score0 : Rat := 1
  let score1 := score0 + (keywords.length : Rat) * (3 / 2)
  let score2 := score1 +
    (if strIncludes item.source "Mayor" then (1 : Rat) else 0)
  let score3 := score2 +
    (if strIncludes item.source "City of New Orleans" then (1 : Rat) / 2 else 0)
  let title := item.title.toLower
  let score4 := score3 +
    (if strIncludes title "breaking" || strIncludes title "emergency"
      then (2 : Rat) else 0)
  let score5 := score4 +
    (if strIncludes title "budget" || strIncludes title "council"
      then (1 : Rat) else 0)
  let score6 := score5 +
    (match item.timestamp with
     | none => (0 : Rat)
     | some ts =>
       if ((now : Rat) - (ts : Rat)) / 3600000 < 6 then (1 : Rat)
       else if ((now : Rat) - (ts : Rat)) / 3600000 < 24 then (1 : Rat) / 2
       else 0)
  let score : Int := min 5 (max 1 (round score6))
  let level := if score ≥ 4 then "high"
    else if score ≥ 3 then "medium" else "low"
  (score, level)

/-- The score exactly as the specification words it: one flat sum, rounded,
then clamped to the interval from 1 to 5. -/
def newsworthinessSpecScore (item : NewsRecord) (k : Nat) (now : Int) : Int :=
  min 5 (max 1 (round ((1 : Rat) + (k : Rat) * (3 / 2)
    + (if strIncludes item.source "Mayor" then (1 : Rat) else 0)
    + (if strIncludes item.source "City of New Orleans" then (1 : Rat) / 2
       else 0)
    + (if strIncludes item.title.toLower "breaking" ||
          strIncludes item.title.toLower "emergency" then (2 : Rat) else 0)
    + (if strIncludes item.title.toLower "budget" ||
          strIncludes item.title.toLower "council" then (1 : Rat) else 0)
    + (match item.timestamp with
       | none => (0 : Rat)
       | some ts =>
         if ((now : Rat) - (ts : Rat)) / 3600000 < 6 then (1 : Rat)
         else if ((now : Rat) - (ts : Rat)) / 3600000 < 24 then (1 : Rat) / 2
         else 0))))

theorem round_rat_mono {a b : Rat} (h : a ≤ b) : round a ≤ round b := by
  rw [round_eq, round_eq]
  exact Int.floor_le_floor (by linarith)

/-- Claim C8: the computed score is the rounded, clamped sum the spec states;
the score is an integer between 1 and 5; the level is high exactly when the
score is at least 4, medium exactly when it is 3, low exactly when it is at
most 2; and with everything else fixed the score is monotone non-decreasing
in the number of matched keywords. -/
theorem calculateNewsworthiness_spec :
    ∀ (item : NewsRecord) (keywords : List String) (now : Int),
      (calculateNewsworthiness item keywords now).1 =
        newsworthinessSpecScore item keywords.length now
      ∧ 1 ≤ (calculateNewsworthiness item keywords now).1
      ∧ (calculateNewsworthiness item keywords now).1 ≤ 5
      ∧ ((calculateNewsworthiness item keywords now).2 = "high" ↔
          4 ≤ (calculateNewsworthiness item keywords now).1)
      ∧ ((calculateNewsworthiness item keywords now).2 = "medium" ↔
          (calculateNewsworthiness item keywords now).1 = 3)
      ∧ ((calculateNewsworthiness item keywords now).2 = "low" ↔
          (calculateNewsworthiness item keywords now).1 ≤ 2)
      ∧ (∀ keywords2 : List String, keywords.length ≤ keywords2.length →
          (calculateNewsworthiness item keywords now).1 ≤
          (calculateNewsworthiness item keywords2 now).1) := by
  intro item keywords now
  have hne1 : ("high" : String) ≠ "medium" := by decide
  have hne2 : ("high" : String) ≠ "low" := by decide
  have hne3 : ("medium" : String) ≠ "high" := by decide
  have hne4 : ("medium" : String) ≠ "low" := by decide
  have hne5 : ("low" : String) ≠ "high" := by decide
  have hne6 : ("low" : String) ≠ "medium" := by decide
  have core : ∀ ks : List String,
      calculateNewsworthiness item ks now =
      (newsworthinessSpecScore item ks.length now,
        if 4 ≤ newsworthinessSpecScore item ks.length now then "high"
        else if 3 ≤ newsworthinessSpecScore item ks.length now then "medium"
        else "low") := by
    intro ks
    simp only [calculateNewsworthiness, newsworthinessSpecScore, ge_iff_le]
  have hb : ∀ ks : List String,
      1 ≤ newsworthinessSpecScore item ks.length now ∧
      newsworthinessSpecScore item ks.length now ≤ 5 := by
    intro ks
    unfold newsworthinessSpecScore
    constructor <;> omega
  rcases hb keywords with ⟨hb1, hb5⟩
  refine ⟨by rw [core keywords], by rw [core keywords]; exact hb1,
    by rw [core keywords]; exact hb5, ?_, ?_, ?_, ?_⟩
  · rw [core keywords]
    by_cases h4 : 4 ≤ newsworthinessSpecScore item keywords.length now
    · simp [h4]
    · by_cases h3 : 3 ≤ newsworthinessSpecScore item keywords.length now
      · simp [h4, h3, hne3]
      · simp [h4, h3, hne5]
  · rw [core keywords]
    by_cases h4 : 4 ≤ newsworthinessSpecScore item keywords.length now
    · simp only [if_pos h4]
      constructor
      · intro h; exact absurd h hne1
      · intro h; omega
    · by_cases h3 : 3 ≤ newsworthinessSpecScore item keywords.length now
      · simp only [if_neg h4, if_pos h3]
        constructor
        · intro _; omega
        · intro _; trivial
      · simp only [if_neg h4, if_neg h3]
        constructor
        · intro h; exact absurd h hne6
        · intro h; omega
  · rw [core keywords]
    by_cases h4 : 4 ≤ newsworthinessSpecScore item keywords.length now
    · simp only [if_pos h4]
      constructor
      · intro h; exact absurd h hne2
      · intro h; omega
    · by_cases h3 : 3 ≤ newsworthinessSpecScore item keywords.length now
      · simp only [if_neg h4, if_pos h3]
        constructor
        · intro h; exact absurd h hne4
        · intro h; omega
      · simp only [if_neg h4, if_neg h3]
        constructor
        · intro _; omega
        · intro _; trivial
  · intro keywords2 hlen
    rw [core keywords, core keywords2]
    show newsworthinessSpecScore item keywords.length now ≤
      newsworthinessSpecScore item keywords2.length now
    unfold newsworthinessSpecScore
    have hq : ((keywords.length : Rat)) ≤ (keywords2.length : Rat) := by
      exact_mod_cast hlen
    have hr := round_rat_mono (a := (1 : Rat) + (keywords.length : Rat) * (3 / 2)
      + (if strIncludes item.source "Mayor" then (1 : Rat) else 0)
      + (if strIncludes item.source "City of New Orleans" then (1 : Rat) / 2
         else 0)
      + (if strIncludes item.title.toLower "breaking" ||
            strIncludes item.title.toLower "emergency" then (2 : Rat) else 0)
      + (if strIncludes item.title.toLower "budget" ||
            strIncludes item.title.toLower "council" then (1 : Rat) else 0)
      + (match item.timestamp with
         | none => (0 : Rat)
         | some ts =>
           if ((now : Rat) - (ts : Rat)) / 3600000 < 6 then (1 : Rat)
           else if ((now : Rat) - (ts : Rat)) / 3600000 < 24 then (1 : Rat) / 2
           else 0))
      (b := (1 : Rat) + (keywords2.length : Rat) * (3 / 2)
      + (if strIncludes item.source "Mayor" then (1 : Rat) else 0)
      + (if strIncludes item.source "City of New Orleans" then (1 : Rat) / 2
         else 0)
      + (if strIncludes item.title.toLower "breaking" ||
            strIncludes item.title.toLower "emergency" then (2 : Rat) else 0)
      + (if strIncludes item.title.toLower "budget" ||
            strIncludes item.title.toLower "council" then (1 : Rat) else 0)
      + (match item.timestamp with
         | none => (0 : Rat)
         | some ts =>
           if ((now : Rat) - (ts : Rat)) / 3600000 < 6 then (1 : Rat)
           else if ((now : Rat) - (ts : Rat)) / 3600000 < 24 then (1 : Rat) / 2
           else 0)) (by linarith)
    omega

/-- Witness for claim C8: monotonicity instantiated at a concrete record and
keyword lists. -/
theorem calculateNewsworthiness_spec_witness :
    ([] : List String).length ≤ (["budget"] : List String).length ∧
    (calculateNewsworthiness (sampleRec "a") [] 0).1 ≤
      (calculateNewsworthiness (sampleRec "a") ["budget"] 0).1 :=
  ⟨by decide,
   (calculateNewsworthiness_spec (sampleRec "a") [] 0).2.2.2.2.2.2
     ["budget"] (by decide)⟩

/-! ## Notifications (monitor.js lines 179–203)

A raised desktop notification, with the grouping tag the code passes.  The
function returns the list of notifications raised by one call: empty when
notifications are disabled, the change list is empty, or no change is NEW;
otherwise exactly one notification, tagged for a single item or for several.
The sound side effect carries no data and is not modelled. -/

structure JsNotification where
  title : String
  body : String
  tag : String
deriving DecidableEq, Repr

def sendNotifications (notificationsEnabled : Bool)
    (changes : List ChangeEvent) : List JsNotification :=
  if !notificationsEnabled || changes.length == 0 then []
  else
    let newItems := changes.filter (fun change => change.type == ChangeType.NEW)
    if newItems.length == 0 then []
    else
      match newItems with
      | [] => []
      | [single] =>
        [{ title := "🏛️ New NOLA News Item",
           body := single.item.title ++ "\nFrom: " ++ single.item.source,
           tag := "nola-news-single" }]
      | _ :: _ :: _ =>
        [{ title := "🏛️ Multiple New NOLA News Items",
           body := toString newItems.length ++
             " new items detected. Check the monitor for details.",
           tag := "nola-news-multiple" }]

/-! ## One check cycle (monitor.js lines 103–166)

The state of the monitor object together with the persisted buckets the
cycle touches.  `checkForUpdates` takes the outcome of
`fetchRealNewsData` (already including extraction) and the clock value, and
returns the successor state, the change list and the raised notifications.
UI rendering calls are outside the model; the status line is kept as a
string field. -/

structure StoredSnapshot where
  lastCheck : Int
  currentNews : List NewsRecord
  previousNews : List NewsRecord
deriving Repr

structure HistoryEntry where
  timestamp : Int
  newsCount : Nat
  changesCount : Nat
deriving Repr

structure MonitorState where
  currentNews : List NewsRecord
  previousNews : List NewsRecord
  lastCheck : Option Int
  storedData : Option StoredSnapshot
  storedHistory : List HistoryEntry
  notificationsEnabled : Bool
  statusMessage : String
  statusSuccess : Bool
deriving Repr

/-- The success path performs, in source order: generation advance, change
detection on the advanced generations, persistence of the snapshot
(`saveToStorage`), history append capped at ten entries (`addToHistory`),
and notifications when the change list is non-empty.  The failure path only
rewrites the status line. -/
def checkForUpdates (fetchResult : Except String (List NewsRecord))
    (now : Int) (s : MonitorState) :
    MonitorState × List ChangeEvent × List JsNotification :=
  match fetchResult with
  | Except.error msg =>
    ({ s with statusMessage := "Error: " ++ msg, statusSuccess := false },
      [], [])
  | Except.ok freshData =>
    let previousNews := s.currentNews
    let currentNews := freshData
    let changes := detectChanges previousNews currentNews
    let snapshot : StoredSnapshot :=
      { lastCheck := now, currentNews := currentNews,
        previousNews := previousNews }
    let entry : HistoryEntry := ⟨now, freshData.length, changes.length⟩
    let history := (entry :: s.storedHistory).take 10
    let notifs := if changes.length > 0
      then sendNotifications s.notificationsEnabled changes else []
    let s2 : MonitorState :=
      { s with
        currentNews := currentNews
        previousNews := previousNews
        lastCheck := some now
        storedData := some snapshot
        storedHistory := history
        statusMessage := "Found " ++ toString freshData.length ++
          " news items, " ++ toString changes.length ++ " changes detected"
        statusSuccess := true }
    (s2, changes, notifs)

/-- Claim C3: when the fetch stage fails, the cycle leaves both record
generations, the persisted snapshot, the persisted history and the recorded
last-check time unchanged; on the success path the generations advance —
current becomes previous, the fresh data becomes current — and the persisted
snapshot records exactly the advanced generations. -/
theorem checkForUpdates_frame :
    (∀ (msg : String) (now : Int) (s : MonitorState),
      (checkForUpdates (Except.error msg) now s).1.currentNews =
        s.currentNews ∧
      (checkForUpdates (Except.error msg) now s).1.previousNews =
        s.previousNews ∧
      (checkForUpdates (Except.error msg) now s).1.storedData =
        s.storedData ∧
      (checkForUpdates (Except.error msg) now s).1.storedHistory =
        s.storedHistory ∧
      (checkForUpdates (Except.error msg) now s).1.lastCheck = s.lastCheck)
    ∧ (∀ (d : List NewsRecord) (now : Int) (s : MonitorState),
      (checkForUpdates (Except.ok d) now s).1.currentNews = d ∧
      (checkForUpdates (Except.ok d) now s).1.previousNews = s.currentNews ∧
      (checkForUpdates (Except.ok d) now s).1.storedData =
        some ⟨now, d, s.currentNews⟩) := by
  constructor
  · intro msg now s
    exact ⟨rfl, rfl, rfl, rfl, rfl⟩
  · intro d now s
    exact ⟨rfl, rfl, rfl⟩

/-- `sendNotifications` in dispatch normal form. -/
theorem sendNotifications_eq (enabled : Bool) (changes : List ChangeEvent) :
    sendNotifications enabled changes =
      (if enabled then
        match changes.filter (fun c => c.type == ChangeType.NEW) with
        | [] => []
        | [single] =>
          [{ title := "🏛️ New NOLA News Item",
             body := single.item.title ++ "\nFrom: " ++ single.item.source,
             tag := "nola-news-single" }]
        | _ :: _ :: _ =>
          [{ title := "🏛️ Multiple New NOLA News Items",
             body := toString
               (changes.filter (fun c => c.type == ChangeType.NEW)).length ++
               " new items detected. Check the monitor for details.",
             tag := "nola-news-multiple" }]
      else []) := by
  cases enabled with
  | false => simp [sendNotifications]
  | true =>
    cases hc : changes with
    | nil => simp [sendNotifications]
    | cons c cs =>
      rw [← hc]
      have hlen : (changes.length == 0) = false := by
        rw [hc]
        simp
      simp only [sendNotifications, Bool.not_true, Bool.false_or, hlen,
        if_neg (by simp : ¬ (false = true)), if_true]
      cases hfil : changes.filter (fun c => c.type == ChangeType.NEW) with
      | nil => simp [hfil]
      | cons n ns =>
        cases ns with
        | nil => simp [hfil]
        | cons n2 ns2 => simp [hfil]

/-- Claim C9: a cycle raises a notification exactly when notifications are
enabled and the change list holds at least one NEW item; at most one
notification is raised; a change list of only REMOVED events raises none;
the tag marks a single new item against several; and the success path of a
cycle raises exactly the notifications of its change list while the failure
path raises none. -/
theorem notifications_iff_new_items :
    ∀ (enabled : Bool) (changes : List ChangeEvent),
      ((sendNotifications enabled changes).length ≤ 1)
      ∧ (sendNotifications enabled changes ≠ [] ↔
          enabled = true ∧ ∃ c ∈ changes, c.type = ChangeType.NEW)
      ∧ ((∀ c ∈ changes, c.type = ChangeType.REMOVED) →
          sendNotifications enabled changes = [])
      ∧ (∀ n ∈ sendNotifications enabled changes,
          (n.tag = "nola-news-single" ↔
            (changes.filter (fun c => c.type == ChangeType.NEW)).length = 1)
          ∧ (n.tag = "nola-news-multiple" ↔
            2 ≤ (changes.filter (fun c => c.type == ChangeType.NEW)).length))
      ∧ (∀ (d : List NewsRecord) (now : Int) (s : MonitorState),
          (checkForUpdates (Except.ok d) now s).2.2 =
            sendNotifications s.notificationsEnabled
              (detectChanges s.currentNews d)
          ∧ ∀ msg, (checkForUpdates (Except.error msg) now s).2.2 = []) := by
  intro enabled changes
  have hmem : (∃ c ∈ changes, c.type = ChangeType.NEW) ↔
      changes.filter (fun c => c.type == ChangeType.NEW) ≠ [] := by
    constructor
    · rintro ⟨c, hc, ht⟩ hfil
      have : c ∈ changes.filter (fun c => c.type == ChangeType.NEW) :=
        List.mem_filter.mpr ⟨hc, by simp [ht]⟩
      rw [hfil] at this
      cases this
    · intro hfil
      cases hf : changes.filter (fun c => c.type == ChangeType.NEW) with
      | nil => exact absurd hf hfil
      | cons n ns =>
        have hn : n ∈ changes.filter (fun c => c.type == ChangeType.NEW) := by
          rw [hf]
          exact List.mem_cons_self n ns
        obtain ⟨hmem', hty⟩ := List.mem_filter.mp hn
        exact ⟨n, hmem', by simpa using hty⟩
  refine ⟨?_, ?_, ?_, ?_, ?_⟩
  · rw [sendNotifications_eq]
    cases enabled with
    | false => simp
    | true =>
      cases hfil : changes.filter (fun c => c.type == ChangeType.NEW) with
      | nil => simp
      | cons n ns =>
        cases ns with
        | nil => simp
        | cons n2 ns2 => simp
  · rw [sendNotifications_eq]
    cases enabled with
    | false => simp
    | true =>
      cases hfil : changes.filter (fun c => c.type == ChangeType.NEW) with
      | nil =>
        simp only [if_true, hmem, hfil]
        simp
      | cons n ns =>
        cases ns with
        | nil =>
          simp only [if_true, hmem, hfil]
          simp
        | cons n2 ns2 =>
          simp only [if_true, hmem, hfil]
          simp
  · intro hall
    have hfil : changes.filter (fun c => c.type == ChangeType.NEW) = [] := by
      apply List.filter_eq_nil_iff.mpr
      intro c hc
      rw [hall c hc]
      simp
    rw [sendNotifications_eq]
    cases enabled with
    | false => simp
    | true => simp [hfil]
  · intro n hn
    rw [sendNotifications_eq] at hn
    cases enabled with
    | false => simp at hn
    | true =>
      cases hfil : changes.filter (fun c => c.type == ChangeType.NEW) with
      | nil =>
        rw [hfil] at hn
        simp at hn
      | cons m ms =>
        cases ms with
        | nil =>
          rw [hfil] at hn
          simp only [if_true, List.mem_singleton] at hn
          subst hn
          constructor
          · simp
          · constructor
            · intro h
              exact absurd h (show ("nola-news-single" : String) ≠
                "nola-news-multiple" from by decide)
            · intro h
              simp at h
        | cons m2 ms2 =>
          rw [hfil] at hn
          simp only [if_true, List.mem_singleton] at hn
          subst hn
          constructor
          · constructor
            · intro h
              exact absurd h (show ("nola-news-multiple" : String) ≠
                "nola-news-single" from by decide)
            · intro h
              simp at h
          · simp
  · intro d now s
    constructor
    · show (if (detectChanges s.currentNews d).length > 0
          then sendNotifications s.notificationsEnabled
            (detectChanges s.currentNews d) else []) =
          sendNotifications s.notificationsEnabled
            (detectChanges s.currentNews d)
      by_cases hlen : (detectChanges s.currentNews d).length > 0
      · rw [if_pos hlen]
      · rw [if_neg hlen]
        have hnil : detectChanges s.currentNews d = [] := by
          cases hd : detectChanges s.currentNews d with
          | nil => rfl
          | cons x xs => rw [hd] at hlen; simp at hlen
        rw [hnil, sendNotifications_eq]
        cases s.notificationsEnabled <;> simp
    · intro msg
      rfl

/-- A concrete removal event for witnesses. -/
def removedEvt : ChangeEvent :=
  { type := ChangeType.REMOVED
    item := sampleRec "a"
    description := "Removed" }

/-- Witness for claim C9: an all-REMOVED change list raises no
notification. -/
theorem notifications_iff_new_items_witness :
    (∀ c ∈ [removedEvt], c.type = ChangeType.REMOVED) ∧
    sendNotifications true [removedEvt] = [] :=
  ⟨by decide,
   (notifications_iff_new_items true [removedEvt]).2.2.1 (by decide)⟩

/-! ## Scheduler (monitor.js lines 224–303)

The browser interval-timer registry is modelled explicitly: `setInterval`
returns a fresh positive id and registers the repeating timer with its
period; `clearInterval` removes an id.  The scheduler-relevant fields of the
monitor object sit beside the registry.  Note that nothing in the source
ever assigns `true` to `autoCheckEnabled`: it is initialised `false`
(line 10) and only ever reset to `false` (line 694). -/

structure TimerSys where
  armed : List (Nat × Nat)
  nextId : Nat
deriving DecidableEq, Repr

def setIntervalM (t : TimerSys) (intervalMs : Nat) : Nat × TimerSys :=
  (t.nextId, { armed := t.armed ++ [(t.nextId, intervalMs)],
               nextId := t.nextId + 1 })

def clearIntervalM (t : TimerSys) (id : Nat) : TimerSys :=
  { armed := t.armed.filter (fun p => p.1 ≠ id), nextId := t.nextId }

structure SchedulerState where
  timers : TimerSys
  autoCheckInterval : Option Nat
  autoCheckEnabled : Bool
  checkIntervalMinutes : Nat
deriving DecidableEq, Repr

/-- monitor.js lines 243–269: clear a previously armed timer when present,
then arm a new repeating timer at the configured period. -/
def startAutoCheck (s : SchedulerState) : SchedulerState :=
  let t := match s.autoCheckInterval with
    | some id => clearIntervalM s.timers id
    | none => s.timers
  let intervalMs := s.checkIntervalMinutes * 60 * 1000
  let r := setIntervalM t intervalMs
  { s with timers := r.2, autoCheckInterval := some r.1 }

/-- monitor.js lines 271–287: clear the armed timer when present, otherwise
leave timer state untouched. -/
def stopAutoCheck (s : SchedulerState) : SchedulerState :=
  match s.autoCheckInterval with
  | some id =>
    { s with timers := clearIntervalM s.timers id, autoCheckInterval := none }
  | none => s

/-- monitor.js lines 224–241: dispatch on the (never-true) enabled flag. -/
def toggleAutoCheck (s : SchedulerState) : SchedulerState :=
  if s.autoCheckEnabled then stopAutoCheck s else startAutoCheck s

/-- monitor.js lines 289–303: record the new period; restart only when the
enabled flag holds. -/
def setCheckInterval (minutes : Nat) (s : SchedulerState) : SchedulerState :=
  let s1 := { s with checkIntervalMinutes := minutes }
  if s1.autoCheckEnabled then startAutoCheck (stopAutoCheck s1) else s1

/-- The scheduler state as constructed (monitor.js lines 9–11), next to an
empty timer registry whose first id is 1 (browser interval ids are
positive). -/
def initialSchedState : SchedulerState :=
  { timers := { armed := [], nextId := 1 },
    autoCheckInterval := none,
    autoCheckEnabled := false,
    checkIntervalMinutes := 15 }

/-- Claim C4 is contradicted by the code: `autoCheckEnabled` is never set to
true, so after the auto-check is started (arming a 15-minute timer),
`setCheckInterval 30` records the new period but the restart branch does not
run — the armed timer keeps firing at the old period.  The repository
troubleshooting guide shows the intended `startAutoCheck` assigning
`this.autoCheckEnabled = true`. -/
theorem setCheckInterval_no_restart :
    (toggleAutoCheck initialSchedState).timers.armed = [(1, 900000)] ∧
    (toggleAutoCheck initialSchedState).autoCheckEnabled = false ∧
    (setCheckInterval 30 (toggleAutoCheck initialSchedState)).timers.armed =
      [(1, 900000)] ∧
    (setCheckInterval 30
      (toggleAutoCheck initialSchedState)).checkIntervalMinutes = 30 ∧
    (setCheckInterval 30 (toggleAutoCheck initialSchedState)).timers.armed ≠
      [(1, 1800000)] := by
  refine ⟨rfl, rfl, rfl, rfl, ?_⟩
  decide

/-! ### Arbitrary sequences of scheduler calls -/

inductive SchedOp where
  | start
  | stop
deriving DecidableEq, Repr

def applyOp : SchedOp → SchedulerState → SchedulerState
  | SchedOp.start, s => startAutoCheck s
  | SchedOp.stop, s => stopAutoCheck s

def applyOps (ops : List SchedOp) (s : SchedulerState) : SchedulerState :=
  ops.foldl (fun s op => applyOp op s) s

/-- At most one interval timer is registered, and the field tracking it
matches the registry. -/
def timerInv (s : SchedulerState) : Prop :=
  (s.autoCheckInterval = none ∧ s.timers.armed = []) ∨
  (∃ id ms, s.autoCheckInterval = some id ∧ s.timers.armed = [(id, ms)])

theorem startAutoCheck_armed (s : SchedulerState) (h : timerInv s) :
    (startAutoCheck s).timers.armed =
      [(s.timers.nextId, s.checkIntervalMinutes * 60 * 1000)] ∧
    (startAutoCheck s).autoCheckInterval = some s.timers.nextId := by
  rcases h with ⟨h1, h2⟩ | ⟨id, ms, h1, h2⟩
  · constructor
    · simp [startAutoCheck, h1, setIntervalM, h2]
    · simp [startAutoCheck, h1, setIntervalM]
  · constructor
    · simp [startAutoCheck, h1, clearIntervalM, setIntervalM, h2]
    · simp [startAutoCheck, h1, clearIntervalM, setIntervalM]

theorem startAutoCheck_inv (s : SchedulerState) (h : timerInv s) :
    timerInv (startAutoCheck s) := by
  obtain ⟨h1, h2⟩ := startAutoCheck_armed s h
  exact Or.inr ⟨s.timers.nextId, s.checkIntervalMinutes * 60 * 1000, h2, h1⟩

theorem stopAutoCheck_inv (s : SchedulerState) (h : timerInv s) :
    timerInv (stopAutoCheck s) := by
  rcases h with ⟨h1, h2⟩ | ⟨id, ms, h1, h2⟩
  · left
    simp [stopAutoCheck, h1, h2]
  · left
    constructor
    · simp [stopAutoCheck, h1]
    · simp [stopAutoCheck, h1, clearIntervalM, h2]

theorem applyOps_inv :
    ∀ (ops : List SchedOp) (s : SchedulerState), timerInv s →
      timerInv (applyOps ops s) := by
  intro ops
  induction ops with
  | nil => intro s h; exact h
  | cons op rest ih =>
    intro s h
    cases op with
    | start => exact ih (startAutoCheck s) (startAutoCheck_inv s h)
    | stop => exact ih (stopAutoCheck s) (stopAutoCheck_inv s h)

/-- Claim C10: from any state satisfying the single-timer invariant — in
particular the freshly constructed monitor — every sequence of
startAutoCheck and stopAutoCheck calls leaves at most one repeating timer
registered; startAutoCheck clears any previously armed timer before arming
exactly one fresh timer at the configured period; and stopAutoCheck on a
state with no armed timer changes nothing. -/
theorem auto_check_single_timer :
    (∀ (ops : List SchedOp) (s : SchedulerState), timerInv s →
      timerInv (applyOps ops s) ∧ (applyOps ops s).timers.armed.length ≤ 1)
    ∧ (∀ s : SchedulerState, timerInv s →
        (startAutoCheck s).timers.armed =
          [(s.timers.nextId, s.checkIntervalMinutes * 60 * 1000)])
    ∧ (∀ s : SchedulerState, s.autoCheckInterval = none → stopAutoCheck s = s)
    ∧ timerInv initialSchedState := by
  refine ⟨?_, ?_, ?_, Or.inl ⟨rfl, rfl⟩⟩
  · intro ops s h
    have hinv := applyOps_inv ops s h
    refine ⟨hinv, ?_⟩
    rcases hinv with ⟨_, h2⟩ | ⟨id, ms, _, h2⟩ <;> simp [h2]
  · intro s h
    exact (startAutoCheck_armed s h).1
  · intro s h
    simp [stopAutoCheck, h]

/-- Witness for claim C10: a concrete start-start-stop sequence from the
initial state keeps at most one timer armed. -/
theorem auto_check_single_timer_witness :
    timerInv initialSchedState ∧
    (applyOps [SchedOp.start, SchedOp.start, SchedOp.stop]
      initialSchedState).timers.armed.length ≤ 1 :=
  ⟨Or.inl ⟨rfl, rfl⟩,
   (auto_check_single_timer.1 [SchedOp.start, SchedOp.start, SchedOp.stop]
     initialSchedState (Or.inl ⟨rfl, rfl⟩)).2⟩

end NolaMonitor
